import Mathlib

/-!
Verification of the type-preserving conversion and SQL-generation engine of
an ETL tool (PostgreSQL data re-rendered as JSON, CSV, MongoDB documents or a
portable SQL script).  Python values are shallowly embedded as an inductive
type; each converter function is translated from the Python source, keeping
the source's branch order (in particular the `isinstance` chains, where the
order matters because Python's `bool` is a subclass of `int` and `datetime`
a subclass of `date`).
-/

set_option autoImplicit false

namespace ETL

/-- Python strings are modelled as lists of characters. -/
abbrev PyStr := List Char

/-- Shorthand for a Python string constant. -/
def pstr (s : String) : PyStr := s.toList

/-- The single-quote character (codepoint 39). -/
def squo : Char := Char.ofNat 39

/-- The backslash character (codepoint 92). -/
def bslash : Char := Char.ofNat 92

/-- The double-quote character (codepoint 34). -/
def dquo : Char := Char.ofNat 34

/-- A dynamically-typed Python value as it occurs in a fetched row.
Floats, Decimals and temporals carry their printed form (`str(value)` /
`value.isoformat()`) as payload: no claim depends on float rounding or on
date arithmetic, only on how the printed forms are routed, so binary64
semantics and calendar arithmetic are not modelled. -/
inductive PyValue : Type where
  | vNone : PyValue
  | vBool (b : Bool) : PyValue
  | vInt (n : Int) : PyValue
  | vFloat (r : PyStr) : PyValue
  | vDecimal (r : PyStr) : PyValue
  | vStr (s : PyStr) : PyValue
  | vDatetime (iso : PyStr) : PyValue
  | vDate (iso : PyStr) : PyValue
  | vBytes (bs : List Nat) : PyValue
  | vDict (entries : List (PyStr × PyValue)) : PyValue
  | vList (elems : List PyValue) : PyValue

/-- A Python dict row: an insertion-ordered association list. -/
abbrev Row := List (PyStr × PyValue)

/-- Sequential fallible map, as a Python comprehension evaluates: elements
in order, the first raised exception (`none`) aborting the whole result. -/
def optionMapM {α β : Type} (f : α → Option β) : List α → Option (List β)
  | [] => some []
  | x :: xs => do
      let y ← f x
      let ys ← optionMapM f xs
      pure (y :: ys)

/-- Sequential fallible left fold, as a Python loop with a fallible body. -/
def optionFoldlM {α β : Type} (f : β → α → Option β) : β → List α → Option β
  | acc, [] => some acc
  | acc, x :: xs => do
      let acc2 ← f acc x
      optionFoldlM f acc2 xs

/-- Test for the Python expression `value is None`. -/
def isNoneVal : PyValue → Bool
  | .vNone => true
  | _ => false

/-- Embeds `isinstance(value, int)`.  In Python this is also true for bools,
because `bool` is a subclass of `int`. -/
def isinstInt : PyValue → Bool
  | .vInt _ => true
  | .vBool _ => true
  | _ => false

/-- Embeds `isinstance(value, (float, Decimal))`. -/
def isinstFloatOrDecimal : PyValue → Bool
  | .vFloat _ => true
  | .vDecimal _ => true
  | _ => false

/-- Embeds `isinstance(value, (int, float, Decimal))`, the numeric check of
`_format_sql_value`; true for bools as well (`bool` is a subclass of `int`). -/
def isinstNumeric (v : PyValue) : Bool :=
  isinstInt v || isinstFloatOrDecimal v

/-- Embeds `isinstance(value, bool)`. -/
def isinstBool : PyValue → Bool
  | .vBool _ => true
  | _ => false

/-- Embeds `isinstance(value, datetime)`. -/
def isinstDatetime : PyValue → Bool
  | .vDatetime _ => true
  | _ => false

/-- Embeds `isinstance(value, date)`.  True for datetimes as well, because
Python's `datetime` is a subclass of `date`. -/
def isinstDate : PyValue → Bool
  | .vDate _ => true
  | .vDatetime _ => true
  | _ => false

/-- Embeds `isinstance(value, (datetime, date))`. -/
def isinstTemporal (v : PyValue) : Bool :=
  isinstDatetime v || isinstDate v

/-- Embeds `isinstance(value, (dict, list))`. -/
def isinstDictOrList : PyValue → Bool
  | .vDict _ => true
  | .vList _ => true
  | _ => false

/-- Embeds `isinstance(value, bytes)`. -/
def isinstBytes : PyValue → Bool
  | .vBytes _ => true
  | _ => false

/-- Embeds `isinstance(value, str)`. -/
def isinstStr : PyValue → Bool
  | .vStr _ => true
  | _ => false

/-- Decimal digits of a natural number, as a Python string. -/
def natStr (n : Nat) : PyStr := (Nat.repr n)|>.toList

/-- Embeds Python `str()` on an int (decimal form, minus sign for negatives). -/
def intStr (n : Int) : PyStr := (Int.repr n)|>.toList

/-- Membership test for the tuple `('mysql', 'mariadb')` used by the SQL
converter's dialect checks. -/
def isMysqlFamily (dialect : PyStr) : Bool :=
  dialect == pstr ("mysql") || dialect == pstr ("mariadb")

/-- Embeds `SQLConverter._infer_sql_type`, keeping the source's branch order.
The `int` check precedes the `bool` check and `isinstance(True, int)` holds in
Python, so the `BOOLEAN` branch is unreachable for bool values; likewise the
`datetime` check precedes the `date` check, so datetimes get `DATETIME`. -/
def inferSqlType (dialect : PyStr) (v : PyValue) : PyStr :=
  if isNoneVal v then pstr ("VARCHAR(255)")
  else if isinstInt v then pstr ("INT")
  else if isinstFloatOrDecimal v then pstr ("DECIMAL(18, 6)")
  else if isinstBool v then pstr ("BOOLEAN")
  else if isinstDatetime v then pstr ("DATETIME")
  else if isinstDate v then pstr ("DATE")
  else if isinstDictOrList v then
    if isMysqlFamily dialect then pstr ("JSON")
    else if dialect == pstr ("postgresql") then pstr ("JSONB")
    else pstr ("TEXT")
  else if isinstBytes v then pstr ("BLOB")
  else
    match v with
    | .vStr s => pstr ("VARCHAR(") ++ natStr (max (min (s.length * 2) 255) 1) ++ pstr (")")
    | _ => pstr ("VARCHAR(255)")

/-- Lowercase hexadecimal digit for a value below 16. -/
def hexDigitChar (n : Nat) : Char :=
  if n < 10 then Char.ofNat (48 + n) else Char.ofNat (87 + n)

/-- Four lowercase hex digits, as produced by json.dumps's escapes. -/
def u4hex (n : Nat) : PyStr :=
  [hexDigitChar (n / 4096 % 16), hexDigitChar (n / 256 % 16),
   hexDigitChar (n / 16 % 16), hexDigitChar (n % 16)]

/-- Embeds the per-character escaping of json.dumps with its default
`ensure_ascii=True`: printable ASCII other than the double quote and the
backslash is kept, the named control escapes and unicode escapes (with
surrogate pairs above the BMP) are emitted for everything else. -/
def jsonEscapeChar (c : Char) : PyStr :=
  let n := c.toNat
  if c = dquo then [bslash, dquo]
  else if c = bslash then [bslash, bslash]
  else if 32 ≤ n ∧ n ≤ 126 then [c]
  else if n = 8 then [bslash, Char.ofNat 98]
  else if n = 9 then [bslash, Char.ofNat 116]
  else if n = 10 then [bslash, Char.ofNat 110]
  else if n = 12 then [bslash, Char.ofNat 102]
  else if n = 13 then [bslash, Char.ofNat 114]
  else if n < 65536 then [bslash, Char.ofNat 117] ++ u4hex n
  else
    [bslash, Char.ofNat 117] ++ u4hex (55296 + (n - 65536) / 1024)
      ++ [bslash, Char.ofNat 117] ++ u4hex (56320 + (n - 65536) % 1024)

/-- Embeds json.dumps's rendering of a string: escaped and double-quoted. -/
def jsonQuoteString (s : PyStr) : PyStr :=
  [dquo] ++ (s.map jsonEscapeChar).flatten ++ [dquo]

mutual

/-- Embeds `json.dumps(value)` with the stock encoder and default separators,
as called in `_format_sql_value` for dict and list values.  Values the stock
encoder cannot serialize (datetime, date, Decimal, bytes) raise TypeError,
modelled as `none`. -/
def pyJsonDumps : PyValue → Option PyStr
  | .vNone => some (pstr ("null"))
  | .vBool b => some (if b then pstr ("true") else pstr ("false"))
  | .vInt n => some (intStr n)
  | .vFloat r => some r
  | .vStr s => some (jsonQuoteString s)
  | .vDict es => do
      let parts ← pyJsonDumpsEntries es
      pure ([Char.ofNat 123] ++ List.intercalate (pstr (", ")) parts ++ [Char.ofNat 125])
  | .vList xs => do
      let parts ← pyJsonDumpsList xs
      pure (pstr ("[") ++ List.intercalate (pstr (", ")) parts ++ pstr ("]"))
  | .vDecimal _ => none
  | .vDatetime _ => none
  | .vDate _ => none
  | .vBytes _ => none

/-- Renders the key/value members of a JSON object, failing if any value
fails to serialize. -/
def pyJsonDumpsEntries : List (PyStr × PyValue) → Option (List PyStr)
  | [] => some []
  | (k, v) :: rest => do
      let vs ← pyJsonDumps v
      let rs ← pyJsonDumpsEntries rest
      pure ((jsonQuoteString k ++ pstr (": ") ++ vs) :: rs)

/-- Renders the members of a JSON array, failing if any member fails. -/
def pyJsonDumpsList : List PyValue → Option (List PyStr)
  | [] => some []
  | v :: rest => do
      let vs ← pyJsonDumps v
      let rs ← pyJsonDumpsList rest
      pure (vs :: rs)

end

/-- Embeds Python's `str.replace(old, new)` for a one-character `old`: each
occurrence of `c` is replaced by `r`, scanning left to right. -/
def replaceChar (c : Char) (r : PyStr) : PyStr → PyStr
  | [] => []
  | x :: xs => if x = c then r ++ replaceChar c r xs else x :: replaceChar c r xs

/-- Embeds `.replace("'", "''")`: every single quote doubled. -/
def sqlEscape (s : PyStr) : PyStr := replaceChar squo [squo, squo] s

/-- Embeds Python `str()` on a value reaching the numeric branch of
`_format_sql_value`: `str(True)` is `True` and `str(False)` is `False`
(bools reach that branch because `bool` is a subclass of `int`).  The final
catch-all case is unreachable: the branch is guarded by `isinstNumeric`. -/
def strOfNumeric : PyValue → PyStr
  | .vBool b => if b then pstr ("True") else pstr ("False")
  | .vInt n => intStr n
  | .vFloat r => r
  | .vDecimal r => r
  | _ => []

/-- The bool branch of `_format_sql_value`: `1`/`0` for the MySQL family,
`TRUE`/`FALSE` otherwise.  Unreachable in the source for actual bools, since
the numeric branch captures them first. -/
def boolSqlLit (dialect : PyStr) : PyValue → PyStr
  | .vBool b =>
      if isMysqlFamily dialect then (if b then pstr ("1") else pstr ("0"))
      else (if b then pstr ("TRUE") else pstr ("FALSE"))
  | _ => []

/-- Embeds `value.isoformat()` on a temporal value (payload of the embedding). -/
def isoOf : PyValue → PyStr
  | .vDatetime iso => iso
  | .vDate iso => iso
  | _ => []

/-- Embeds `bytes.hex()`: two lowercase hex digits per byte. -/
def bytesHex (bs : List Nat) : PyStr :=
  (bs.map (fun b => [hexDigitChar (b / 16 % 16), hexDigitChar (b % 16)])).flatten

/-- The byte payload of a `vBytes` value. -/
def bytesOf : PyValue → List Nat
  | .vBytes bs => bs
  | _ => []

/-- Embeds Python `str()` on a value reaching the final branch of
`_format_sql_value`; only strings can reach it, every other kind having been
captured by an earlier isinstance check. -/
def strFallback : PyValue → PyStr
  | .vStr s => s
  | _ => []

/-- Embeds `SQLConverter._format_sql_value`, keeping the source's branch
order.  The numeric check precedes the bool check and `isinstance(True, int)`
holds in Python, so bools are rendered via `str()` as `True`/`False` and the
dialect-aware bool branch is dead code.  `none` models an exception escaping
(json.dumps TypeError on an unserializable nested value). -/
def formatSqlValue (dialect : PyStr) (v : PyValue) : Option PyStr :=
  if isNoneVal v then some (pstr ("NULL"))
  else if isinstNumeric v then some (strOfNumeric v)
  else if isinstBool v then some (boolSqlLit dialect v)
  else if isinstTemporal v then some ([squo] ++ isoOf v ++ [squo])
  else if isinstDictOrList v then do
      let j ← pyJsonDumps v
      pure ([squo] ++ sqlEscape j ++ [squo])
  else if isinstBytes v then
    some (if isMysqlFamily dialect then
            ['X', squo] ++ bytesHex (bytesOf v) ++ [squo]
          else
            [squo, bslash, 'x'] ++ bytesHex (bytesOf v) ++ [squo])
  else some ([squo] ++ sqlEscape (strFallback v) ++ [squo])

/-- The character list replaced (after the space pass) inside
`_sanitize_column_name`, in the source's order. -/
def badChars : List Char :=
  ['(', ')', '.', ',', ';', ':', '!', '?', '%', '$', '#', '@', '*', '+', '/', bslash]

/-- The final step of `_sanitize_column_name`: `if sanitized and
sanitized[0].isdigit(): sanitized = 'c_' + sanitized`.  Python's
`str.isdigit` also accepts some non-ASCII digit characters; the model uses
ASCII digits, which changes no claim's reasoning. -/
def digitGuard (l : PyStr) : PyStr :=
  match l with
  | [] => []
  | c :: rest => if c.isDigit then 'c' :: '_' :: c :: rest else c :: rest

/-- Embeds `SQLConverter._sanitize_column_name`: spaces, then every character
of `badChars`, replaced by an underscore; a leading digit gets a `c_`
prefix. -/
def sanitizeColumnName (name : PyStr) : PyStr :=
  digitGuard (badChars.foldl (fun acc c => replaceChar c ['_'] acc)
    (replaceChar ' ' ['_'] name))

/-- Embeds Python dict assignment `d[k] = v` on an insertion-ordered dict:
an existing key keeps its position and receives the new value, a new key is
appended at the end. -/
def pyDictSetItem (d : Row) (k : PyStr) (v : PyValue) : Row :=
  if d.any (fun kv => kv.1 == k) then
    d.map (fun kv => if kv.1 == k then (k, v) else kv)
  else d ++ [(k, v)]

/-- Embeds `SQLConverter._process_item`: a fresh dict built by assigning each
value under its sanitized key, in the row's own key order. -/
def sqlProcessItem (item : Row) : Row :=
  item.foldl (fun acc kv => pyDictSetItem acc (sanitizeColumnName kv.1) kv.2) []

/-- Embeds `SQLConverter.preprocess_data` (the tqdm progress bar for large
datasets changes no data). -/
def sqlPreprocessData (data : List Row) : List Row :=
  data.map sqlProcessItem

/-- Embeds `item.get(col)`: the stored value, or `None` when absent. -/
def pyDictGet (item : Row) (k : PyStr) : PyValue :=
  match item.find? (fun kv => kv.1 == k) with
  | some kv => kv.2
  | none => .vNone

/-- Embeds `list(item.keys())`. -/
def rowKeys (item : Row) : List PyStr := item.map Prod.fst

/-- One row's VALUES tuple for a given column list: the source's
`"(" + ", ".join(self._format_sql_value(item.get(col)) for col in columns) + ")"`.
`none` models a value formatter raising. -/
def rowTuple (dialect : PyStr) (columns : List PyStr) (item : Row) : Option PyStr := do
  let parts ← optionMapM (fun col => formatSqlValue dialect (pyDictGet item col)) columns
  pure (pstr ("(") ++ List.intercalate (pstr (", ")) parts ++ pstr (")"))

/-- Embeds `SQLConverter._generate_batch_insert`.  `columns` is computed once
from the batch's FIRST row, and every row's VALUES tuple is assembled by
looking those columns up in that row (`item.get(col)`, `None` when absent),
each tuple appended to the `values` accumulator in turn. -/
def generateBatchInsert (dialect : PyStr) (batch : List Row) (table : PyStr) :
    Option PyStr :=
  match batch with
  | [] => some []
  | first :: _ => do
      let columns := rowKeys first
      let header := pstr ("INSERT INTO `") ++ table ++ pstr ("` (`")
        ++ List.intercalate (pstr ("`, `")) columns ++ pstr ("`) VALUES\n")
      let values ← optionFoldlM
        (fun acc item => (rowTuple dialect columns item).map (fun y => acc ++ [y]))
        ([] : List PyStr) batch
      pure (header ++ List.intercalate (pstr (",\n")) values ++ pstr (";"))

/-- Embeds `SQLConverter._generate_single_insert`: one INSERT whose column
list and VALUES tuple both follow this row's own key order. -/
def generateSingleInsert (dialect : PyStr) (item : Row) (table : PyStr) :
    Option PyStr := do
  let columns := rowKeys item
  let values ← optionMapM (fun col => formatSqlValue dialect (pyDictGet item col)) columns
  pure (pstr ("INSERT INTO `") ++ table ++ pstr ("` (`")
    ++ List.intercalate (pstr ("`, `")) columns ++ pstr ("`) VALUES (")
    ++ List.intercalate (pstr (", ")) values ++ pstr (");"))

/-- Embeds `SQLConverter._generate_create_table`: one declaration per key of
the first row, the type inferred from that row's value. -/
def generateCreateTable (dialect : PyStr) (data : List Row) (table : PyStr) : PyStr :=
  match data with
  | [] => pstr ("-- Cannot generate CREATE TABLE for ") ++ table
            ++ pstr (" - no data provided\n")
  | first :: _ =>
      let columns := first.map
        (fun kv => pstr ("`") ++ kv.1 ++ pstr ("` ") ++ inferSqlType dialect kv.2)
      pstr ("CREATE TABLE `") ++ table ++ pstr ("` (\n")
        ++ List.intercalate (pstr (",\n")) (columns.map (fun col => pstr ("    ") ++ col))
        ++ pstr ("\n);\n")

/-- Sequential chunks of size `bs`: the Python slices `data[i:i+bs]` for `i`
in `range(0, len(data), bs)`.  The fuel equals the list length, which
suffices whenever `bs ≥ 1`; `bs = 0` is guarded at the call site, where
Python's `range` raises ValueError. -/
def chunksFuel {α : Type} : Nat → Nat → List α → List (List α)
  | 0, _, _ => []
  | _ + 1, _, [] => []
  | fuel + 1, bs, l => l.take bs :: chunksFuel fuel bs (l.drop bs)

/-- The chunking of a list with the fuel instantiated. -/
def chunks {α : Type} (bs : Nat) (l : List α) : List (List α) :=
  chunksFuel l.length bs l

/-- The SQL-relevant configuration: the `config['sql']` keys, with the
source's defaults applied at their use sites (`dialect` defaults to mysql in
`__init__`; `batch_size` to 100 and `use_batch_insert` to True in
`_generate_sql`; a falsy `table_name` falls back to the sink's file name).
Python would admit a negative `batch_size` (making `range` empty, so no
INSERTs); the model restricts the size to naturals, which no claim uses. -/
structure SqlConfig where
  dialect : PyStr
  tableName : Option PyStr
  batchSize : Nat
  useBatchInsert : Bool

/-- The configuration produced by an empty `config['sql']` section. -/
def defaultSqlConfig : SqlConfig :=
  ⟨pstr ("mysql"), none, 100, true⟩

/-- Embeds `SQLConverter._generate_sql`: the no-data comment for an empty
dataset, else CREATE TABLE followed by the insertion statements, batched or
row-by-row.  `none` models an exception escaping (zero batch size, or a
value formatter raising). -/
def generateSql (cfg : SqlConfig) (data : List Row) (table : PyStr) : Option PyStr :=
  match data with
  | [] => some (pstr ("-- No data to convert for table ") ++ table ++ pstr ("\n"))
  | _ => do
      let ddl := generateCreateTable cfg.dialect data table
      let mid := pstr ("\n\n-- Data insertion statements\n")
      if cfg.useBatchInsert then
        if cfg.batchSize = 0 then none
        else do
          let parts ← optionMapM
            (fun b => generateBatchInsert cfg.dialect b table) (chunks cfg.batchSize data)
          pure (ddl ++ mid ++ (parts.map (fun p => p ++ pstr ("\n"))).flatten)
      else do
        let parts ← optionMapM (fun item => generateSingleInsert cfg.dialect item table) data
        pure (ddl ++ mid ++ (parts.map (fun p => p ++ pstr ("\n"))).flatten)

mutual

/-- Embeds `bytes.decode('utf-8')` (strict): standard UTF-8 decoding,
rejecting truncated sequences, stray continuation or invalid lead bytes,
overlong forms, surrogate code points and values beyond U+10FFFF.  `none`
models UnicodeDecodeError. -/
def utf8Decode : List Nat → Option (List Char)
  | [] => some []
  | b :: rest =>
    if b < 128 then (utf8Decode rest).map (fun cs => Char.ofNat b :: cs)
    else utf8DecodeMulti b rest

/-- Decodes one multi-byte UTF-8 sequence led by the byte `b` (≥ 128),
followed by the rest of the stream. -/
def utf8DecodeMulti (b : Nat) (rest : List Nat) : Option (List Char) :=
  if b < 194 then none
  else if b < 224 then
    match rest with
    | c1 :: rest1 =>
      if 128 ≤ c1 ∧ c1 < 192 then
        (utf8Decode rest1).map
          (fun cs => Char.ofNat ((b - 192) * 64 + (c1 - 128)) :: cs)
      else none
    | [] => none
  else if b < 240 then
    match rest with
    | c1 :: c2 :: rest2 =>
      if (if b = 224 then 160 ≤ c1 ∧ c1 < 192
          else if b = 237 then 128 ≤ c1 ∧ c1 < 160
          else 128 ≤ c1 ∧ c1 < 192) ∧ 128 ≤ c2 ∧ c2 < 192 then
        (utf8Decode rest2).map
          (fun cs => Char.ofNat ((b - 224) * 4096 + (c1 - 128) * 64 + (c2 - 128)) :: cs)
      else none
    | _ => none
  else if b < 245 then
    match rest with
    | c1 :: c2 :: c3 :: rest3 =>
      if (if b = 240 then 144 ≤ c1 ∧ c1 < 192
          else if b = 244 then 128 ≤ c1 ∧ c1 < 144
          else 128 ≤ c1 ∧ c1 < 192)
          ∧ 128 ≤ c2 ∧ c2 < 192 ∧ 128 ≤ c3 ∧ c3 < 192 then
        (utf8Decode rest3).map
          (fun cs => Char.ofNat ((b - 240) * 262144 + (c1 - 128) * 4096
            + (c2 - 128) * 64 + (c3 - 128)) :: cs)
      else none
    | _ => none
  else none

end

/-- Index, from the start, of the last occurrence of a character
(Python's `str.rfind`, restricted to found-or-not). -/
def lastIndexOf (c : Char) : PyStr → Option Nat
  | [] => none
  | x :: xs =>
    match lastIndexOf c xs with
    | some i => some (i + 1)
    | none => if x = c then some 0 else none

/-- Drops every trailing occurrence of a character (Python `str.rstrip`). -/
def dropTrailing (c : Char) (l : PyStr) : PyStr :=
  (l.reverse.dropWhile (fun x => x = c)).reverse

/-- Embeds `os.path.dirname` (POSIX): everything up to and including the
final slash, with trailing slashes stripped unless the head is all slashes;
the empty string when the path has no slash. -/
def osPathDirname (p : PyStr) : PyStr :=
  match lastIndexOf '/' p with
  | none => []
  | some i =>
    let head := p.take (i + 1)
    if head ≠ [] ∧ ¬ (head.all (fun c => c = '/')) then dropTrailing '/' head
    else head

/-- Embeds `os.path.basename` (POSIX): everything after the final slash. -/
def osPathBasename (p : PyStr) : PyStr :=
  match lastIndexOf '/' p with
  | none => p
  | some i => p.drop (i + 1)

/-- Embeds the root part of `os.path.splitext` on a bare file name (the
source applies it to a basename, which contains no slash): split at the
last dot, except when every character before that dot is itself a dot. -/
def splitextStem (p : PyStr) : PyStr :=
  match lastIndexOf '.' p with
  | none => p
  | some di => if (p.take di).any (fun c => c ≠ '.') then p.take di else p

/-- Embeds `BaseConverter.validate_data`.  On the typed embedding the
`isinstance` checks (the input is a list, every element a dict) hold by
construction, so validation reduces to the emptiness test, which the source
answers with False (`if not data: return False`, logging a warning). -/
def validateData (data : List Row) : Bool :=
  !data.isEmpty

/-- Embeds the success of `os.makedirs(d, exist_ok=True)`: the call raises
FileNotFoundError when `d` is the empty string (the dirname of a bare file
name).  Other I/O failures (permissions, full disk) are outside the model:
a nonempty directory path is treated as creatable. -/
def makedirsOk (d : PyStr) : Bool :=
  !d.isEmpty

/-- Embeds `SQLConverter.convert`: validation, preprocessing, output
directory creation, table-name resolution (a falsy configured name falls
back to the sink's base name with its extension stripped), SQL generation
and the file write.  The result pairs the returned boolean with the artifact
written to the sink (`none` when nothing was written). -/
def sqlConvert (cfg : SqlConfig) (data : List Row) (outputPath : PyStr) :
    Bool × Option PyStr :=
  if !validateData data then (false, none)
  else
    let processed := sqlPreprocessData data
    if !makedirsOk (osPathDirname outputPath) then (false, none)
    else
      let table :=
        match cfg.tableName with
        | some t => if t.isEmpty then splitextStem (osPathBasename outputPath) else t
        | none => splitextStem (osPathBasename outputPath)
      match generateSql cfg processed table with
      | none => (false, none)
      | some sqlText => (true, some sqlText)

/-- Embeds `PostgreSQLJSONEncoder.default`: temporals to their ISO string,
Decimals to floats (the binary64 rounding is not modelled: the printed form
is kept, and no claim depends on it), and bytes DECODED AS UTF-8 — not the
hex string.  Anything else raises TypeError via the base class, and an
undecodable byte sequence raises UnicodeDecodeError; both are `none`. -/
def postgreSQLJsonEncoderDefault : PyValue → Option PyValue
  | .vDatetime iso => some (.vStr iso)
  | .vDate iso => some (.vStr iso)
  | .vDecimal r => some (.vFloat r)
  | .vBytes bs => (utf8Decode bs).map .vStr
  | _ => none

mutual

/-- The value as `json.dump` with `cls=PostgreSQLJSONEncoder` emits it:
native JSON types pass through (containers recursively), any other type is
replaced by the custom encoder's result, which is always a native scalar
here.  `none` models the dump raising. -/
def jsonEncodeValue : PyValue → Option PyValue
  | .vNone => some .vNone
  | .vBool b => some (.vBool b)
  | .vInt n => some (.vInt n)
  | .vFloat r => some (.vFloat r)
  | .vStr s => some (.vStr s)
  | .vDict es => (jsonEncodeEntries es).map .vDict
  | .vList xs => (jsonEncodeList xs).map .vList
  | v => postgreSQLJsonEncoderDefault v

/-- Encodes the members of a nested dict. -/
def jsonEncodeEntries : List (PyStr × PyValue) → Option (List (PyStr × PyValue))
  | [] => some []
  | (k, v) :: rest => do
      let v2 ← jsonEncodeValue v
      let r2 ← jsonEncodeEntries rest
      pure ((k, v2) :: r2)

/-- Encodes the members of a nested list. -/
def jsonEncodeList : List PyValue → Option (List PyValue)
  | [] => some []
  | v :: rest => do
      let v2 ← jsonEncodeValue v
      let r2 ← jsonEncodeList rest
      pure (v2 :: r2)

end

/-- Embeds `JsonConverter._process_item`: a fresh dict with every key/value
kept (the None branch stores the None back unchanged). -/
def jsonProcessItem (item : Row) : Row :=
  item.foldl (fun acc kv => pyDictSetItem acc kv.1 kv.2) []

/-- Rows as `json.dump` will emit them. -/
def jsonEncodeRows (data : List Row) : Option (List Row) :=
  optionMapM (fun item => optionMapM (fun kv => (jsonEncodeValue kv.2).map ((kv.1, ·))) item) data

/-- Embeds `JsonConverter.convert`: validation, preprocessing, directory
creation, then `json.dump` with the custom encoder.  The artifact is the
encoded row list; the indent-2 textual rendering is not modelled, no claim
reading the JSON text.  A dump failure returns False (the source catches
the exception; a partially written file is possible but nothing well-formed
is produced, so the artifact is `none`). -/
def jsonConvert (data : List Row) (outputPath : PyStr) : Bool × Option (List Row) :=
  if !validateData data then (false, none)
  else
    let processed := data.map jsonProcessItem
    if !makedirsOk (osPathDirname outputPath) then (false, none)
    else
      match jsonEncodeRows processed with
      | none => (false, none)
      | some enc => (true, some enc)

mutual

/-- Embeds Python `repr()` on the values nested inside a composite, as
`str(value)` prints a dict or list.  String escaping (quote choice between
the two quote characters, backslash escapes for non-printables) is modelled
for the common cases; no claim evaluates it. -/
def pyReprValue : PyValue → PyStr
  | .vNone => pstr ("None")
  | .vBool b => if b then pstr ("True") else pstr ("False")
  | .vInt n => intStr n
  | .vFloat r => r
  | .vDecimal r => pstr ("Decimal(") ++ [squo] ++ r ++ [squo] ++ pstr (")")
  | .vStr s =>
      let q := if s.contains squo && !s.contains dquo then dquo else squo
      [q] ++ (s.map (fun c =>
        if c = bslash then [bslash, bslash]
        else if c = q then [bslash, q]
        else if c.toNat = 10 then [bslash, Char.ofNat 110]
        else if c.toNat = 13 then [bslash, Char.ofNat 114]
        else if c.toNat = 9 then [bslash, Char.ofNat 116]
        else [c])).flatten ++ [q]
  | .vDatetime iso => pstr ("datetime.datetime(") ++ iso ++ pstr (")")
  | .vDate iso => pstr ("datetime.date(") ++ iso ++ pstr (")")
  | .vBytes bs => pstr ("b") ++ [squo] ++ bytesHex bs ++ [squo]
  | .vDict es => [Char.ofNat 123]
      ++ List.intercalate (pstr (", ")) (pyReprEntries es) ++ [Char.ofNat 125]
  | .vList xs => pstr ("[")
      ++ List.intercalate (pstr (", ")) (pyReprList xs) ++ pstr ("]")

/-- Repr of the members of a dict. -/
def pyReprEntries : List (PyStr × PyValue) → List PyStr
  | [] => []
  | (k, v) :: rest =>
      (pyReprValue (.vStr k) ++ pstr (": ") ++ pyReprValue v) :: pyReprEntries rest

/-- Repr of the members of a list. -/
def pyReprList : List PyValue → List PyStr
  | [] => []
  | v :: rest => pyReprValue v :: pyReprList rest

end

/-- Embeds the per-value transformation of `CSVConverter._process_item`,
keeping the source's branch order: None to the empty string, composites via
`str()`, temporals to their ISO string, Decimals to floats (rounding not
modelled), bytes to their HEX string, everything else unchanged. -/
def csvProcessValue : PyValue → PyValue
  | .vNone => .vStr []
  | .vDict es => .vStr (pyReprValue (.vDict es))
  | .vList xs => .vStr (pyReprValue (.vList xs))
  | .vDatetime iso => .vStr iso
  | .vDate iso => .vStr iso
  | .vDecimal r => .vFloat r
  | .vBytes bs => .vStr (bytesHex bs)
  | v => v

/-- Embeds `CSVConverter._process_item`: a fresh dict with every value
mapped through `csvProcessValue` under its unchanged key. -/
def csvProcessItem (item : Row) : Row :=
  item.foldl (fun acc kv => pyDictSetItem acc kv.1 (csvProcessValue kv.2)) []

/-- Embeds `CSVConverter.validate_data`: the base validation (which already
rejects an empty dataset, making the override's own empty-data branch
unreachable) followed by a warning-only key-consistency check that never
fails. -/
def csvValidateData (data : List Row) : Bool :=
  validateData data

/-- Embeds `CSVConverter.convert`: validation, preprocessing, directory
creation, then the pandas DataFrame write.  The artifact is the processed
row list; the delimited text rendering by pandas is not modelled, no claim
reading the CSV text. -/
def csvConvert (data : List Row) (outputPath : PyStr) : Bool × Option (List Row) :=
  if !csvValidateData data then (false, none)
  else
    let processed := data.map csvProcessItem
    if !makedirsOk (osPathDirname outputPath) then (false, none)
    else (true, some processed)

/-- Embeds the key rewriting of `MongoDBConverter._process_item` for a
non-None value.  `key[0]` is evaluated first, so an empty key raises
IndexError (`none`).  A key whose first character is a digit is prefixed
with an underscore and otherwise kept unchanged — its dots are NOT replaced,
the digit test winning the inner if/else; only a key not starting with a
digit has its dots replaced by underscores. -/
def mongoSanitizeKey : PyStr → Option PyStr
  | [] => none
  | c :: k =>
      if c.isDigit || (c :: k).contains '.' then
        some (if c.isDigit then '_' :: c :: k else replaceChar '.' ['_'] (c :: k))
      else some (c :: k)

/-- Embeds `MongoDBConverter._process_item`: a None value is stored under
its ORIGINAL key (the sanitization branch is skipped entirely); any other
value is stored under the sanitized key. -/
def mongoProcessItem (item : Row) : Option Row :=
  optionFoldlM
    (fun acc kv =>
      match kv.2 with
      | .vNone => some (pyDictSetItem acc kv.1 .vNone)
      | v => (mongoSanitizeKey kv.1).map (fun nk => pyDictSetItem acc nk v))
    ([] : Row) item

/-- Embeds `MongoDBJSONEncoder.default`: temporals wrapped in a `$date`
document, Decimals to floats (rounding not modelled), bytes wrapped as a
`$binary`/`$type` document carrying the hex string; anything else raises. -/
def mongoJsonEncoderDefault : PyValue → Option PyValue
  | .vDatetime iso => some (.vDict [(pstr ("$date"), .vStr iso)])
  | .vDate iso => some (.vDict [(pstr ("$date"), .vStr iso)])
  | .vDecimal r => some (.vFloat r)
  | .vBytes bs => some (.vDict
      [(pstr ("$binary"), .vStr (bytesHex bs)), (pstr ("$type"), .vStr (pstr ("00")))])
  | _ => none

mutual

/-- The value as `json.dump` with `cls=MongoDBJSONEncoder` emits it. -/
def mongoEncodeValue : PyValue → Option PyValue
  | .vNone => some .vNone
  | .vBool b => some (.vBool b)
  | .vInt n => some (.vInt n)
  | .vFloat r => some (.vFloat r)
  | .vStr s => some (.vStr s)
  | .vDict es => (mongoEncodeEntries es).map .vDict
  | .vList xs => (mongoEncodeList xs).map .vList
  | v => mongoJsonEncoderDefault v

/-- Encodes the members of a nested dict. -/
def mongoEncodeEntries : List (PyStr × PyValue) → Option (List (PyStr × PyValue))
  | [] => some []
  | (k, v) :: rest => do
      let v2 ← mongoEncodeValue v
      let r2 ← mongoEncodeEntries rest
      pure ((k, v2) :: r2)

/-- Encodes the members of a nested list. -/
def mongoEncodeList : List PyValue → Option (List PyValue)
  | [] => some []
  | v :: rest => do
      let v2 ← mongoEncodeValue v
      let r2 ← mongoEncodeList rest
      pure (v2 :: r2)

end

/-- Rows as the MongoDB file save will emit them. -/
def mongoEncodeRows (data : List Row) : Option (List Row) :=
  optionMapM (fun item => optionMapM (fun kv => (mongoEncodeValue kv.2).map ((kv.1, ·))) item) data

/-- Embeds `MongoDBConverter.convert`: validation, preprocessing (which can
raise on an empty key), then either the bulk insert into the external
document store for a `mongodb://` sink (the remote store is an external
collaborator; a committed insert is modelled, with no file artifact) or a
file save through directory creation and `json.dump` with the MongoDB
encoder. -/
def mongoConvert (data : List Row) (outputPath : PyStr) : Bool × Option (List Row) :=
  if !validateData data then (false, none)
  else
    match optionMapM mongoProcessItem data with
    | none => (false, none)
    | some processed =>
      if List.isPrefixOf (pstr ("mongodb://")) outputPath then
        (true, none)
      else
        if !makedirsOk (osPathDirname outputPath) then (false, none)
        else
          match mongoEncodeRows processed with
          | none => (false, none)
          | some enc => (true, some enc)

/-- Refinement target for the amended C4 claim, phrased from the amended
words: within a multi-row INSERT every VALUES tuple is ordered by the
BATCH'S FIRST row's key order, each column looked up in the row itself
(NULL for a missing key), values going through the shared formatter. -/
def specBatchInsertFirstRowOrder (dialect : PyStr) (batch : List Row) (table : PyStr) :
    Option PyStr :=
  match batch with
  | [] => some []
  | first :: _ => do
      let columns := rowKeys first
      let tuples ← optionMapM (rowTuple dialect columns) batch
      pure (pstr ("INSERT INTO `") ++ table ++ pstr ("` (`")
        ++ List.intercalate (pstr ("`, `")) columns ++ pstr ("`) VALUES\n")
        ++ List.intercalate (pstr (",\n")) tuples ++ pstr (";"))

/-- Characterization of single-character replacement as a per-character
expansion: used to read the quote-doubling rule off the replace call. -/
theorem replaceChar_eq_flatten (c : Char) (r : PyStr) (s : PyStr) :
    replaceChar c r s = (s.map (fun x => if x = c then r else [x])).flatten := by
  induction s with
  | nil => rfl
  | cons x xs ih => by_cases h : x = c <;> simp [replaceChar, h, ih]

/-- Claim C2 (code_bug evidence): the SQL type inferencer returns INT — not
BOOLEAN — for every boolean value, whatever the dialect, because Python's
`bool` is a subclass of `int` and the int check precedes the bool check; the
BOOLEAN branch is unreachable for every value. -/
theorem C2_bool_type_inference (dialect : PyStr) :
    (∀ b : Bool, inferSqlType dialect (.vBool b) = pstr ("INT"))
    ∧ ∀ v : PyValue, inferSqlType dialect v ≠ pstr ("BOOLEAN") := by
  constructor
  · intro b; rfl
  · intro v
    cases v <;>
      simp [inferSqlType, isNoneVal, isinstInt, isinstFloatOrDecimal, isinstBool,
        isinstDatetime, isinstDate, isinstDictOrList, isinstBytes, isMysqlFamily,
        pstr] <;>
      split_ifs <;>
      simp [pstr, natStr]

/-- Claim C3 (code_bug evidence): the SQL value formatter renders every
boolean as the Python `str()` form `True`/`False`, whatever the dialect: the
numeric isinstance check captures bools first, so the dialect-aware branch
producing 1/0 or TRUE/FALSE is dead code. -/
theorem C3_bool_sql_literal (dialect : PyStr) (b : Bool) :
    formatSqlValue dialect (.vBool b)
      = some (if b then pstr ("True") else pstr ("False")) := by
  cases b <;> rfl

/-- Claim C7: a date-time value is inferred as DATETIME and a date-only
value as DATE — the datetime check precedes the date check, so a date-time
is never classified as DATE even though Python's datetime is a date. -/
theorem C7_temporal_type_inference (dialect : PyStr) (iso : PyStr) :
    inferSqlType dialect (.vDatetime iso) = pstr ("DATETIME")
    ∧ inferSqlType dialect (.vDate iso) = pstr ("DATE") :=
  ⟨rfl, rfl⟩

/-- Claim C8: a text value is rendered as a SQL string literal with every
embedded single quote doubled before the wrapping quotes are added; in
particular O'Brien renders as 'O''Brien'. -/
theorem C8_single_quote_escaping (dialect : PyStr) (s : PyStr) :
    formatSqlValue dialect (.vStr s)
      = some ([squo]
          ++ (s.map (fun c => if c = squo then [squo, squo] else [c])).flatten
          ++ [squo])
    ∧ formatSqlValue dialect (.vStr (pstr ("O") ++ [squo] ++ pstr ("Brien")))
      = some ([squo] ++ pstr ("O") ++ [squo, squo] ++ pstr ("Brien") ++ [squo]) := by
  constructor
  · show some ([squo] ++ sqlEscape s ++ [squo]) = _
    rw [sqlEscape, replaceChar_eq_flatten]
  · rfl

/-- A character of a single-character replacement's output comes from the
replacement string or is an original character other than the replaced one. -/
theorem mem_replaceChar {x c : Char} {r l : PyStr} (h : x ∈ replaceChar c r l) :
    x ∈ r ∨ (x ∈ l ∧ x ≠ c) := by
  induction l with
  | nil => simp [replaceChar] at h
  | cons y ys ih =>
    by_cases hy : y = c
    · simp only [replaceChar, if_pos hy, List.mem_append] at h
      rcases h with h1 | h2
      · exact Or.inl h1
      · rcases ih h2 with h3 | ⟨h4, h5⟩
        · exact Or.inl h3
        · exact Or.inr ⟨List.mem_cons_of_mem _ h4, h5⟩
    · simp only [replaceChar, if_neg hy, List.mem_cons] at h
      rcases h with h1 | h2
      · subst h1; exact Or.inr ⟨List.mem_cons_self _ _, hy⟩
      · rcases ih h2 with h3 | ⟨h4, h5⟩
        · exact Or.inl h3
        · exact Or.inr ⟨List.mem_cons_of_mem _ h4, h5⟩

/-- Replacement is the identity when the replaced character does not occur. -/
theorem replaceChar_eq_of_not_mem {c : Char} (r : PyStr) {l : PyStr} (h : c ∉ l) :
    replaceChar c r l = l := by
  induction l with
  | nil => rfl
  | cons y ys ih =>
    have hy : ¬ y = c := fun he => h (he ▸ List.mem_cons_self _ _)
    rw [replaceChar, if_neg hy, ih (fun hm => h (List.mem_cons_of_mem _ hm))]

/-- A character surviving the fold of underscore replacements is an
underscore or an original character outside the replaced set. -/
theorem mem_foldl_replace {x : Char} {cs : List Char} {l : PyStr}
    (h : x ∈ cs.foldl (fun acc c => replaceChar c ['_'] acc) l) :
    x = '_' ∨ (x ∈ l ∧ x ∉ cs) := by
  induction cs generalizing l with
  | nil => exact Or.inr ⟨h, by simp⟩
  | cons c cs ih =>
    simp only [List.foldl_cons] at h
    rcases ih h with h1 | ⟨h2, h3⟩
    · exact Or.inl h1
    · rcases mem_replaceChar h2 with h4 | ⟨h5, h6⟩
      · simp only [List.mem_singleton] at h4
        exact Or.inl h4
      · refine Or.inr ⟨h5, ?_⟩
        simp only [List.mem_cons, not_or]
        exact ⟨h6, h3⟩

/-- The fold of underscore replacements is the identity when none of the
replaced characters occurs. -/
theorem foldl_replace_eq_of_disjoint {cs : List Char} {l : PyStr}
    (h : ∀ c ∈ cs, c ∉ l) :
    cs.foldl (fun acc c => replaceChar c ['_'] acc) l = l := by
  induction cs with
  | nil => rfl
  | cons c cs ih =>
    simp only [List.foldl_cons]
    rw [replaceChar_eq_of_not_mem _ (h c (List.mem_cons_self _ _))]
    exact ih (fun c2 hc2 => h c2 (List.mem_cons_of_mem _ hc2))

/-- Every character surviving both replacement passes of the sanitizer is
neither a space nor in the replaced character set. -/
theorem sanitize_core_chars {x : Char} {s : PyStr}
    (h : x ∈ badChars.foldl (fun acc c => replaceChar c ['_'] acc)
      (replaceChar ' ' ['_'] s)) :
    x ≠ ' ' ∧ x ∉ badChars := by
  rcases mem_foldl_replace h with h1 | ⟨h2, h3⟩
  · subst h1; exact ⟨by decide, by decide⟩
  · rcases mem_replaceChar h2 with h4 | ⟨_, h6⟩
    · simp only [List.mem_singleton] at h4
      subst h4; exact ⟨by decide, by decide⟩
    · exact ⟨h6, h3⟩

/-- A string whose characters are all clean and whose head is not a digit is
a fixed point of the sanitizer. -/
theorem sanitize_fixed {l : PyStr} (hcl : ∀ x ∈ l, x ≠ ' ' ∧ x ∉ badChars)
    (hd : ∀ c rest, l = c :: rest → c.isDigit = false) :
    sanitizeColumnName l = l := by
  have hid : badChars.foldl (fun acc c => replaceChar c ['_'] acc)
      (replaceChar ' ' ['_'] l) = l := by
    rw [replaceChar_eq_of_not_mem _ (fun hm => (hcl _ hm).1 rfl)]
    exact foldl_replace_eq_of_disjoint (fun c hc hcl2 => (hcl c hcl2).2 hc)
  unfold sanitizeColumnName
  rw [hid]
  cases l with
  | nil => rfl
  | cons c rest => simp [digitGuard, hd c rest rfl]

/-- Claim C9: SQL column-name sanitization is idempotent. -/
theorem C9_sanitize_idempotent (s : PyStr) :
    sanitizeColumnName (sanitizeColumnName s) = sanitizeColumnName s := by
  have hclean : ∀ x ∈ badChars.foldl (fun acc c => replaceChar c ['_'] acc)
      (replaceChar ' ' ['_'] s), x ≠ ' ' ∧ x ∉ badChars :=
    fun _ hx => sanitize_core_chars hx
  have hout : sanitizeColumnName s =
      digitGuard (badChars.foldl (fun acc c => replaceChar c ['_'] acc)
        (replaceChar ' ' ['_'] s)) := rfl
  rw [hout]
  cases hcase : badChars.foldl (fun acc c => replaceChar c ['_'] acc)
      (replaceChar ' ' ['_'] s) with
  | nil => exact sanitize_fixed (by simp [digitGuard]) (by simp [digitGuard])
  | cons c rest =>
    rw [hcase] at hclean
    by_cases hdig : c.isDigit
    · simp only [digitGuard, if_pos hdig]
      refine sanitize_fixed ?_ ?_
      · intro x hx
        simp only [List.mem_cons] at hx
        rcases hx with rfl | rfl | hx3
        · exact ⟨by decide, by decide⟩
        · exact ⟨by decide, by decide⟩
        · exact hclean x (by simp [List.mem_cons, hx3])
      · intro c2 rest2 he
        cases he
        decide
    · simp only [digitGuard, if_neg hdig]
      refine sanitize_fixed (fun x hx => hclean x hx) ?_
      intro c2 rest2 he
      cases he
      simpa using hdig

/-- Collecting results by appending to an accumulator equals mapping and
prepending the accumulator (Option-valued). -/
theorem optionFoldlM_append_eq_mapM {α β : Type} (t : α → Option β) (l : List α)
    (acc : List β) :
    optionFoldlM (fun a x => (t x).map (fun y => a ++ [y])) acc l
      = (optionMapM t l).map (fun ys => acc ++ ys) := by
  induction l generalizing acc with
  | nil => simp [optionFoldlM, optionMapM]
  | cons x xs ih =>
    cases h : t x with
    | none => simp [optionFoldlM, optionMapM, h]
    | some y =>
      cases h2 : optionMapM t xs with
      | none => simp [optionFoldlM, optionMapM, h, ih, h2]
      | some ys => simp [optionFoldlM, optionMapM, h, ih, h2]

/-- Claim C4 counterexample: with a second row whose key order differs from
the first row's, the second VALUES tuple follows the FIRST row's key order
(a, b), producing (4, 3) — not that row's own order (b, a), which would
produce (3, 4) as the claim requires. -/
theorem C4_counterexample :
    generateBatchInsert (pstr ("mysql"))
      [[(pstr ("a"), .vInt 1), (pstr ("b"), .vInt 2)],
       [(pstr ("b"), .vInt 3), (pstr ("a"), .vInt 4)]] (pstr ("t"))
      = some (pstr ("INSERT INTO `t` (`a`, `b`) VALUES\n(1, 2),\n(4, 3);"))
    ∧ pstr ("INSERT INTO `t` (`a`, `b`) VALUES\n(1, 2),\n(4, 3);")
      ≠ pstr ("INSERT INTO `t` (`a`, `b`) VALUES\n(1, 2),\n(3, 4);") :=
  ⟨rfl, by decide⟩

/-- Claim C4 (amended): within each multi-row INSERT, every VALUES tuple
follows the BATCH'S FIRST row's key order, looking each column up in the
row itself (missing keys become NULL); consequently the output depends on a
later row only through its key-to-value mapping, not its key order. -/
theorem C4_batch_insert_first_row_order :
    (∀ dialect batch table, generateBatchInsert dialect batch table
        = specBatchInsertFirstRowOrder dialect batch table)
    ∧ ∀ dialect table (r1 r2 r2' : Row),
        (∀ k : PyStr, pyDictGet r2 k = pyDictGet r2' k) →
        generateBatchInsert dialect [r1, r2] table
          = generateBatchInsert dialect [r1, r2'] table := by
  have hre : ∀ dialect batch table, generateBatchInsert dialect batch table
      = specBatchInsertFirstRowOrder dialect batch table := by
    intro d batch t
    cases batch with
    | nil => rfl
    | cons first rest =>
      simp only [generateBatchInsert, specBatchInsertFirstRowOrder]
      rw [optionFoldlM_append_eq_mapM (rowTuple d (rowKeys first))]
      cases h : optionMapM (rowTuple d (rowKeys first)) (first :: rest) with
      | none => simp [h]
      | some tuples => simp [h]
  refine ⟨hre, ?_⟩
  intro d t r1 r2 r2' h
  have htup : rowTuple d (rowKeys r1) r2 = rowTuple d (rowKeys r1) r2' := by
    unfold rowTuple
    have hfn : (fun col => formatSqlValue d (pyDictGet r2 col))
        = (fun col => formatSqlValue d (pyDictGet r2' col)) :=
      funext fun col => by rw [h col]
    rw [hfn]
  rw [hre, hre]
  simp only [specBatchInsertFirstRowOrder, optionMapM, htup]

/-- Claim C1 counterexample: an empty dataset does NOT convert successfully:
every converter's validation rejects it and convert returns False. -/
theorem C1_counterexample :
    (sqlConvert defaultSqlConfig [] (pstr ("out/data.sql"))).1 = false
    ∧ (jsonConvert [] (pstr ("out/data.json"))).1 = false
    ∧ (csvConvert [] (pstr ("out/data.csv"))).1 = false
    ∧ (mongoConvert [] (pstr ("out/data.json"))).1 = false :=
  ⟨rfl, rfl, rfl, rfl⟩

/-- Claim C1 (amended): for every format converter, convert on an empty
dataset returns False and writes nothing — validate_data rejects the empty
dataset before any I/O.  The SQL generator's empty-data branch, unreachable
through convert, would produce the single explanatory comment line with no
DDL or DML. -/
theorem C1_empty_dataset (cfg : SqlConfig) (path table : PyStr) :
    sqlConvert cfg [] path = (false, none)
    ∧ jsonConvert [] path = (false, none)
    ∧ csvConvert [] path = (false, none)
    ∧ mongoConvert [] path = (false, none)
    ∧ generateSql cfg [] table
        = some (pstr ("-- No data to convert for table ") ++ table ++ pstr ("\n")) :=
  ⟨rfl, rfl, rfl, rfl, rfl⟩

/-- Claim C5 counterexample: a key that both begins with a digit and
contains a dot is only prefixed — the dot survives — and the key of a None
value is not sanitized at all. -/
theorem C5_counterexample :
    mongoProcessItem [(pstr ("2.x"), .vInt 1)] = some [(pstr ("_2.x"), .vInt 1)]
    ∧ pstr ("_2.x") ≠ pstr ("_2_x")
    ∧ mongoProcessItem [(pstr ("2024total"), .vNone)]
        = some [(pstr ("2024total"), .vNone)] :=
  ⟨rfl, by decide, rfl⟩

/-- Claim C5 (amended): for a non-None value, a key beginning with a digit
is output with an underscore prefix and otherwise unchanged (its dots are
NOT replaced); a key not beginning with a digit but containing a dot has
every dot replaced by an underscore; the key of a None value is left
untouched. -/
theorem C5_key_sanitization (c : Char) (k : PyStr) (v : PyValue) :
    (v ≠ .vNone → c.isDigit = true →
      mongoProcessItem [(c :: k, v)] = some [('_' :: c :: k, v)])
    ∧ (v ≠ .vNone → c.isDigit = false → (c :: k).contains '.' = true →
      mongoProcessItem [(c :: k, v)] = some [(replaceChar '.' ['_'] (c :: k), v)])
    ∧ ∀ key : PyStr, mongoProcessItem [(key, .vNone)] = some [(key, .vNone)] := by
  refine ⟨?_, ?_, ?_⟩
  · intro hv hd
    have hkey : mongoSanitizeKey (c :: k) = some ('_' :: c :: k) := by
      simp only [mongoSanitizeKey]
      rw [hd]
      simp
    cases v <;> first
      | exact absurd rfl hv
      | simp [mongoProcessItem, optionFoldlM, hkey, pyDictSetItem]
  · intro hv hd hdot
    have hkey : mongoSanitizeKey (c :: k) = some (replaceChar '.' ['_'] (c :: k)) := by
      simp only [mongoSanitizeKey]
      rw [hd, hdot]
      simp
    cases v <;> first
      | exact absurd rfl hv
      | simp [mongoProcessItem, optionFoldlM, hkey, pyDictSetItem]
  · intro key
    rfl

/-- Witness for C5: the amended sanitization evaluated on the spec's
Scenario C key, a dotted key, and a None-valued key. -/
theorem C5_key_sanitization_witness :
    mongoProcessItem [(pstr ("2024total"), .vInt 5)]
        = some [(pstr ("_2024total"), .vInt 5)]
    ∧ mongoProcessItem [(pstr ("a.b"), .vInt 5)] = some [(pstr ("a_b"), .vInt 5)]
    ∧ mongoProcessItem [(pstr ("x"), .vNone)] = some [(pstr ("x"), .vNone)] :=
  ⟨(C5_key_sanitization '2' (pstr ("024total")) (.vInt 5)).1 (by simp) (by decide),
   (C5_key_sanitization 'a' (pstr (".b")) (.vInt 5)).2.1 (by simp) (by decide) (by decide),
   (C5_key_sanitization 'x' [] (.vInt 5)).2.2 (pstr ("x"))⟩

/-- Claim C6 counterexample: the structured-document encoder normalizes the
bytes 0x61 0x62 to their UTF-8 decoding "ab", not to the hex string 6162. -/
theorem C6_counterexample :
    postgreSQLJsonEncoderDefault (.vBytes [97, 98]) = some (.vStr (pstr ("ab")))
    ∧ bytesHex [97, 98] = pstr ("6162")
    ∧ pstr ("ab") ≠ pstr ("6162") :=
  ⟨rfl, rfl, by decide⟩

/-- Claim C6 (amended): a binary value is normalized to its hex string for
the tabular-text format, but for the structured-document format the JSON
encoder returns its UTF-8 decoding — raising on undecodable bytes — and on
ASCII bytes that decoding is the corresponding character sequence. -/
theorem C6_binary_normalization (bs : List Nat) :
    csvProcessValue (.vBytes bs) = .vStr (bytesHex bs)
    ∧ postgreSQLJsonEncoderDefault (.vBytes bs) = (utf8Decode bs).map .vStr
    ∧ ((∀ b ∈ bs, b < 128) → utf8Decode bs = some (bs.map Char.ofNat)) := by
  refine ⟨rfl, rfl, ?_⟩
  intro h
  induction bs with
  | nil => rfl
  | cons b rest ih =>
    have hb : b < 128 := h b (List.mem_cons_self _ _)
    have hr := ih (fun x hx => h x (List.mem_cons_of_mem _ hx))
    unfold utf8Decode
    rw [if_pos hb, hr]
    rfl

/-- Witness for C6: the ASCII characterization evaluated on the bytes of
"hi". -/
theorem C6_binary_normalization_witness :
    utf8Decode [104, 105] = some (pstr ("hi")) :=
  (C6_binary_normalization [104, 105]).2.2 (by decide)

/-- A character that does not occur has no last index. -/
theorem lastIndexOf_eq_none {c : Char} {p : PyStr} (h : c ∉ p) :
    lastIndexOf c p = none := by
  induction p with
  | nil => rfl
  | cons x xs ih =>
    have hx : ¬ x = c := fun he => h (he ▸ List.mem_cons_self _ _)
    simp [lastIndexOf, ih (fun hm => h (List.mem_cons_of_mem _ hm)), hx]

/-- A path without a slash has an empty dirname. -/
theorem osPathDirname_eq_nil {p : PyStr} (h : ('/' : Char) ∉ p) :
    osPathDirname p = [] := by
  simp [osPathDirname, lastIndexOf_eq_none h]

/-- Claim C10: for a non-empty dataset and a sink path containing no
directory separator, the SQL, structured-document and tabular-text
converters return False and write nothing: os.path.dirname yields the empty
string, os.makedirs raises on it, and the except branch reports failure. -/
theorem C10_bare_filename_fails (cfg : SqlConfig) (data : List Row) (path : PyStr)
    (hdata : data ≠ []) (hpath : ('/' : Char) ∉ path) :
    sqlConvert cfg data path = (false, none)
    ∧ jsonConvert data path = (false, none)
    ∧ csvConvert data path = (false, none) := by
  have hval : validateData data = true := by
    cases data with
    | nil => exact absurd rfl hdata
    | cons r rs => rfl
  have hdir : makedirsOk (osPathDirname path) = false := by
    rw [osPathDirname_eq_nil hpath]; rfl
  refine ⟨?_, ?_, ?_⟩ <;>
    simp [sqlConvert, jsonConvert, csvConvert, csvValidateData, hval, hdir]

/-- Witness for C10: a one-row dataset and the bare file name data.sql. -/
theorem C10_bare_filename_fails_witness :
    sqlConvert defaultSqlConfig [[(pstr ("a"), .vInt 1)]] (pstr ("data.sql"))
        = (false, none)
    ∧ jsonConvert [[(pstr ("a"), .vInt 1)]] (pstr ("data.sql")) = (false, none)
    ∧ csvConvert [[(pstr ("a"), .vInt 1)]] (pstr ("data.sql")) = (false, none) :=
  C10_bare_filename_fails defaultSqlConfig _ _ (by simp) (by decide)

end ETL
